import Mathlib

/-!
Shallow embedding of the SkillBridge frontend data/matching layer
(`src/App.tsx`): the in-memory mock store (`mock`), its operations
(`getSkills`, `getOpps`, `postOpp`, `getUsers`, `postUser`, `getMatches`)
and the data-access dispatcher (`api`), together with theorems checking
the natural-language specification against this code.

Modelling conventions:
* JS strings are Lean `String`; `localeCompare` on ISO-8601 timestamps is
  modelled as lexicographic `String` order.
* `uid()` and `new Date().toISOString()` are nondeterministic inputs of the
  process; they are passed to the operations as explicit parameters.
* A JS value that may be `undefined`/`null` is an `Option`; reading a
  property of `undefined` (a TypeError at runtime) is an `Except.error`.
* JS `Array.prototype.sort` is stable (ES2019), so `slice().sort(cmp)` is
  `List.mergeSort`.
-/

namespace SkillBridge

/-- `type Skill = { id: string; name: string }` (src/App.tsx line 3). -/
structure Skill where
  id : String
  name : String
deriving DecidableEq, Repr

/-- `type Opportunity = { id; title; description; createdAt; skills; matchScore? }`
(src/App.tsx line 4).  `matchScore` is optional in TS, hence `Option Nat`. -/
structure Opportunity where
  id : String
  title : String
  description : String
  createdAt : String
  skills : List Skill
  matchScore : Option Nat := none
deriving DecidableEq, Repr

/-- `type User = { id; name; email; skills }` (src/App.tsx line 5). -/
structure User where
  id : String
  name : String
  email : String
  skills : List Skill
deriving DecidableEq, Repr

/-- The mutable collections captured by the `mock` closure
(src/App.tsx lines 13–78): `skills`, `opportunities`, `users`. -/
structure MockStore where
  skills : List Skill
  opportunities : List Opportunity
  users : List User
deriving DecidableEq, Repr

/-- The parsed JSON request body.  In the source the body is untyped
(`body: any`); the fields read by `postOpp` (`title`, `description`,
`skillIds`) and by `postUser` (`name`, `email`, `skillIds`) are modelled.
`skillIds` is `Option` because the code guards it (`body?.skillIds || []`):
`none` stands for an absent or `null` field. -/
structure ReqBody where
  title : String := ""
  description : String := ""
  name : String := ""
  email : String := ""
  skillIds : Option (List String) := none
deriving DecidableEq, Repr

/-- `(body?.skillIds || [])` (src/App.tsx lines 55 and 62): optional
chaining yields `undefined` when `body` is `undefined`, and `|| []`
replaces `undefined`/`null` by the empty array. -/
def skillIdsOrEmpty (body : Option ReqBody) : List String :=
  (body.bind ReqBody.skillIds).getD []

/-- `const getSkills = async () => skills` (src/App.tsx line 52). -/
def getSkills (st : MockStore) : List Skill :=
  st.skills

/-- The comparator `(a, b) => b.createdAt.localeCompare(a.createdAt)`
(src/App.tsx line 53), as the `le` relation of a stable sort: `a` may be
placed before `b` exactly when the comparator is `≤ 0`, i.e. when
`b.createdAt ≤ a.createdAt`. -/
def oppLE (a b : Opportunity) : Bool :=
  decide (b.createdAt ≤ a.createdAt)

/-- `const getOpps = async () => opportunities.slice().sort((a, b) =>
b.createdAt.localeCompare(a.createdAt))` (src/App.tsx line 53): a stable
descending sort of a copy of the collection. -/
def getOpps (st : MockStore) : List Opportunity :=
  st.opportunities.mergeSort oppLE

/-- `const postOpp = async (body) => { const chosen = skills.filter(s =>
(body?.skillIds || []).includes(s.id)); const opp = { id: uid(), title:
body.title, description: body.description, createdAt: new
Date().toISOString(), skills: chosen }; opportunities.unshift(opp); return
opp; }` (src/App.tsx lines 54–59).  `newId` stands for `uid()` and `ts`
for `new Date().toISOString()`.  When `body` is `undefined` the plain
accesses `body.title` / `body.description` throw a TypeError, modelled as
`Except.error`. -/
def postOpp (st : MockStore) (newId ts : String) (body : Option ReqBody) :
    Except String (Opportunity × MockStore) :=
  let chosen := st.skills.filter (fun s => (skillIdsOrEmpty body).contains s.id)
  match body with
  | none => Except.error "TypeError: Cannot read properties of undefined"
  | some b =>
      let opp : Opportunity :=
        { id := newId, title := b.title, description := b.description,
          createdAt := ts, skills := chosen, matchScore := none }
      Except.ok (opp, { st with opportunities := opp :: st.opportunities })

/-- `const getUsers = async () => users` (src/App.tsx line 60). -/
def getUsers (st : MockStore) : List User :=
  st.users

/-- `const postUser = async (body) => { const chosen = skills.filter(s =>
(body?.skillIds || []).includes(s.id)); const user = { id: uid(), name:
body.name, email: body.email, skills: chosen }; users.push(user); return
user; }` (src/App.tsx lines 61–66). -/
def postUser (st : MockStore) (newId : String) (body : Option ReqBody) :
    Except String (User × MockStore) :=
  let chosen := st.skills.filter (fun s => (skillIdsOrEmpty body).contains s.id)
  match body with
  | none => Except.error "TypeError: Cannot read properties of undefined"
  | some b =>
      let user : User := { id := newId, name := b.name, email := b.email, skills := chosen }
      Except.ok (user, { st with users := st.users ++ [user] })

/-- `const getMatches = async (userId) => { const u = users.find(x => x.id
=== userId); if (!u) return []; const uSkillIds = new Set(u.skills.map(s =>
s.id)); return opportunities.map(o => ({ ...o, matchScore:
o.skills.reduce((acc, s) => acc + (uSkillIds.has(s.id) ? 1 : 0), 0) }));
}` (src/App.tsx lines 67–75).  The `Set` is modelled by list membership on
`u.skills.map Skill.id`, which agrees with `Set.has`. -/
def getMatches (st : MockStore) (userId : String) : List Opportunity :=
  match st.users.find? (fun x => x.id == userId) with
  | none => []
  | some u =>
      let uSkillIds := u.skills.map Skill.id
      st.opportunities.map (fun o =>
        let score := o.skills.foldl (fun acc s => acc + (if uSkillIds.contains s.id then 1 else 0)) 0
        { o with matchScore := some score })

/-- The possible JSON payloads returned by the mock routes. -/
inductive ApiPayload where
  | skillList (xs : List Skill)
  | oppList (xs : List Opportunity)
  | opp (o : Opportunity)
  | userList (xs : List User)
  | user (u : User)
deriving DecidableEq, Repr

/-- The `RequestInit` options of a call: `options?.method` and
`options?.body` (already parsed; `none` = absent body). -/
structure RequestOptions where
  method : Option String := none
  body : Option ReqBody := none
deriving DecidableEq, Repr

/-- JS `String.prototype.startsWith`: is `pre` an initial segment of `s`?
Implemented over the character lists so that it evaluates by kernel
reduction. -/
def jsStartsWith (s pre : String) : Bool :=
  pre.data.isPrefixOf s.data

/-- JS `String.prototype.endsWith`: is `suf` a final segment of `s`? -/
def jsEndsWith (s suf : String) : Bool :=
  suf.data.isSuffixOf s.data

/-- Character-list worker for `jsSplit`: `acc` holds the (reversed)
characters of the current field. -/
def jsSplitAux (sep : Char) : List Char → List Char → List String
  | [], acc => [String.mk acc.reverse]
  | c :: cs, acc =>
      if c == sep then String.mk acc.reverse :: jsSplitAux sep cs []
      else jsSplitAux sep cs (c :: acc)

/-- JS `String.prototype.split` with a one-character separator, as used by
`path.split('/')` (src/App.tsx line 91): empty fields are kept, so
`"/a/b"` splits to `["", "a", "b"]`. -/
def jsSplit (s : String) (sep : Char) : List String :=
  jsSplitAux sep s.data []

/-- JS `String.prototype.toUpperCase` restricted to the ASCII method names
that occur here, as the character-wise uppercase map. -/
def toUpperCase (s : String) : String :=
  String.mk (s.data.map Char.toUpper)

/-- The mock-mode branch of `api` (src/App.tsx lines 81–94): the literal
route table.  `method` is the already-uppercased method string, `newId`
and `ts` feed the write routes.  Returns the payload together with the
store after the call. -/
def mockRoute (st : MockStore) (path method : String) (body : Option ReqBody)
    (newId ts : String) : Except String (ApiPayload × MockStore) :=
  if path == "/api/skills" && method == "GET" then
    Except.ok (ApiPayload.skillList (getSkills st), st)
  else if path == "/api/opportunities" && method == "GET" then
    Except.ok (ApiPayload.oppList (getOpps st), st)
  else if path == "/api/opportunities" && method == "POST" then
    (postOpp st newId ts body).map (fun p => (ApiPayload.opp p.1, p.2))
  else if path == "/api/users" && method == "GET" then
    Except.ok (ApiPayload.userList (getUsers st), st)
  else if path == "/api/users" && method == "POST" then
    (postUser st newId body).map (fun p => (ApiPayload.user p.1, p.2))
  else if jsStartsWith path "/api/users/" && jsEndsWith path "/matches" && method == "GET" then
    let userId := (jsSplit path '/').getD 3 ""
    Except.ok (ApiPayload.oppList (getMatches st userId), st)
  else
    Except.error ("Mock route not implemented: " ++ method ++ " " ++ path)

/-- A resolved `fetch` response as observed by the live branch of `api`:
`ok`, the raw body text (`res.text()`), and the parsed JSON
(`res.json()`). -/
structure HttpResponse where
  ok : Bool
  text : String
  json : ApiPayload
deriving DecidableEq, Repr

/-- The live-mode branch of `api` (src/App.tsx lines 97–102):
`if (!res.ok) throw new Error(await res.text()); return res.json();`. -/
def liveRoute (res : HttpResponse) : Except String ApiPayload :=
  if !res.ok then Except.error res.text else Except.ok res.json

/-- JS `s || d` for a possibly-absent string: `undefined`, `null` and the
empty string are all falsy, so each of them yields the default `d`. -/
def jsOrString (s : Option String) (d : String) : String :=
  match s with
  | none => d
  | some str => if str == "" then d else str

/-- `async function api(path, options)` (src/App.tsx lines 80–103).
`useMock` is the process-wide `USE_MOCK` flag; in mock mode the method is
`(options?.method || 'GET').toUpperCase()` — where `||` also replaces an
empty-string method by `'GET'` — and the body is the parsed
`options.body`; in live mode `res` is the resolved fetch response and the
store is untouched. -/
def api (useMock : Bool) (st : MockStore) (path : String)
    (options : Option RequestOptions) (newId ts : String) (res : HttpResponse) :
    Except String (ApiPayload × MockStore) :=
  if useMock then
    let method := toUpperCase (jsOrString (options.bind RequestOptions.method) "GET")
    let body := options.bind RequestOptions.body
    mockRoute st path method body newId ts
  else
    (liveRoute res).map (fun j => (j, st))

/-- Whether a method+path pair matches a row of the mock route table
(the six guards of src/App.tsx lines 85–93). -/
def inRouteTable (path method : String) : Bool :=
  (path == "/api/skills" && method == "GET") ||
  (path == "/api/opportunities" && method == "GET") ||
  (path == "/api/opportunities" && method == "POST") ||
  (path == "/api/users" && method == "GET") ||
  (path == "/api/users" && method == "POST") ||
  (jsStartsWith path "/api/users/" && jsEndsWith path "/matches" && method == "GET")

/-! Concrete example data, mirroring the scenario of §8 of the spec:
a user with skills `{A, B}` and opportunities `[{skills:[A]}, {skills:[C]},
{skills:[A,B]}]` in that store order. -/

/-- Example skill `A`. -/
def skA : Skill := { id := "A", name := "SkillA" }

/-- Example skill `B`. -/
def skB : Skill := { id := "B", name := "SkillB" }

/-- Example skill `C`. -/
def skC : Skill := { id := "C", name := "SkillC" }

/-- Example opportunity requiring `[A]`. -/
def oppA : Opportunity :=
  { id := "o1", title := "t1", description := "d1",
    createdAt := "2024-01-03T00:00:00.000Z", skills := [skA] }

/-- Example opportunity requiring `[C]`. -/
def oppC : Opportunity :=
  { id := "o2", title := "t2", description := "d2",
    createdAt := "2024-01-02T00:00:00.000Z", skills := [skC] }

/-- Example opportunity requiring `[A, B]`. -/
def oppAB : Opportunity :=
  { id := "o3", title := "t3", description := "d3",
    createdAt := "2024-01-01T00:00:00.000Z", skills := [skA, skB] }

/-- Example user with skills `{A, B}`. -/
def userAB : User :=
  { id := "u1", name := "Alice", email := "alice@example.com", skills := [skA, skB] }

/-- Example store with catalog `[A, B, C]`, the three example opportunities
and the one example user. -/
def stEx : MockStore :=
  { skills := [skA, skB, skC], opportunities := [oppA, oppC, oppAB], users := [userAB] }

/-- An example failed fetch response (a 404 whose body text is `Not found`). -/
def res404 : HttpResponse :=
  { ok := false, text := "Not found", json := ApiPayload.skillList [] }

/-- An example successful fetch response. -/
def res200 : HttpResponse :=
  { ok := true, text := "[]", json := ApiPayload.skillList [] }

/-- The opportunity created by `POST /api/opportunities` on `stEx` with
body `{ title := "x" }`, fresh id `"n"` and timestamp `"t"`. -/
def oppNew : Opportunity :=
  { id := "n", title := "x", description := "", createdAt := "t", skills := [] }

/-- The router output of that creation call. -/
def outNew : ApiPayload × MockStore :=
  (ApiPayload.opp oppNew, { stEx with opportunities := oppNew :: stEx.opportunities })

/-- The router output of `GET /api/users/u1/matches` on `stEx`. -/
def outMatches : ApiPayload × MockStore :=
  (ApiPayload.oppList (getMatches stEx "u1"), stEx)

/-- First of two opportunities created in sequence on `stEx`. -/
def oppFresh1 : Opportunity :=
  { id := "i1", title := "y", description := "",
    createdAt := "2024-02-01T00:00:00.000Z", skills := [] }

/-- Second (newest) of the two opportunities created in sequence. -/
def oppFresh2 : Opportunity :=
  { id := "i2", title := "z", description := "",
    createdAt := "2024-02-02T00:00:00.000Z", skills := [] }

/-- `stEx` after creating `oppFresh1`. -/
def stEx1 : MockStore :=
  { stEx with opportunities := oppFresh1 :: stEx.opportunities }

/-- `stEx1` after creating `oppFresh2`. -/
def stEx2 : MockStore :=
  { stEx1 with opportunities := oppFresh2 :: stEx1.opportunities }

/-! ### Helper lemmas -/

/-- The `reduce`-style accumulation of `getMatches` counts the skills
satisfying the predicate. -/
theorem foldl_add_ite_count (p : Skill → Bool) (l : List Skill) :
    ∀ n : Nat, l.foldl (fun acc s => acc + (if p s then 1 else 0)) n = n + l.countP p := by
  induction l with
  | nil => intro n; simp
  | cons s l ih =>
      intro n
      cases hp : p s
      all_goals simp [hp, ih, List.countP_cons]
      all_goals omega

/-! ### Claim theorems -/

/-- C1: for an existing user id, `matchesFor` returns one entry per stored
opportunity, in the store's order, each entry being the stored record with
`matchScore` set to the number of its skills whose id lies in the user's
skill-id set (zero-score entries included, nothing filtered or re-sorted). -/
theorem matchesFor_spec (st : MockStore) (userId : String) (u : User)
    (hu : st.users.find? (fun x => x.id == userId) = some u) :
    getMatches st userId
      = st.opportunities.map (fun o =>
          { o with
              matchScore := some (o.skills.countP (fun s => (u.skills.map Skill.id).contains s.id)) }) := by
  simp only [getMatches, hu]
  congr 1
  funext o
  simp only [foldl_add_ite_count, Nat.zero_add]

/-- C1 witness: at the spec's concrete scenario (user skills `{A,B}`,
opportunities `[[A],[C],[A,B]]`) the scores are `[1, 0, 2]` in store order. -/
theorem matchesFor_spec_witness :
    (getMatches stEx "u1"
        = stEx.opportunities.map (fun o =>
            { o with
                matchScore := some (o.skills.countP (fun s => (userAB.skills.map Skill.id).contains s.id)) }))
    ∧ (getMatches stEx "u1").map Opportunity.matchScore = [some 1, some 0, some 2] :=
  ⟨matchesFor_spec stEx "u1" userAB (by decide), by decide⟩

/-- C2: a user id matching no stored user yields the empty sequence,
not an error. -/
theorem matchesFor_unknown_user (st : MockStore) (userId : String)
    (h : ∀ u ∈ st.users, u.id ≠ userId) :
    getMatches st userId = [] := by
  have hf : st.users.find? (fun x => x.id == userId) = none := by
    rw [List.find?_eq_none]
    intro u hu
    simpa using h u hu
  simp [getMatches, hf]

/-- C2 witness: the unknown id of §8 of the spec. -/
theorem matchesFor_unknown_user_witness :
    getMatches stEx "unknown-id" = [] :=
  matchesFor_unknown_user stEx "unknown-id" (by decide)

/-- C3: both creation calls select the catalog's skills whose id occurs in
the given `skillIds`, in catalog order; the order of `skillIds` is
irrelevant (any permutation of it selects the same sequence), unknown ids
are dropped silently, and an empty list yields a successful creation with
an empty skills sequence. -/
theorem create_skill_filter (st : MockStore) (b : ReqBody) (newId ts : String)
    (ids : List String) (hids : b.skillIds = some ids) :
    ((postOpp st newId ts (some b)).map (fun p => p.1.skills)
        = Except.ok (st.skills.filter (fun s => ids.contains s.id)))
    ∧ ((postUser st newId (some b)).map (fun p => p.1.skills)
        = Except.ok (st.skills.filter (fun s => ids.contains s.id)))
    ∧ (∀ ids2 : List String, ids2.Perm ids →
        (postOpp st newId ts (some { b with skillIds := some ids2 })).map (fun p => p.1.skills)
          = Except.ok (st.skills.filter (fun s => ids.contains s.id)))
    ∧ (ids = [] →
        (postOpp st newId ts (some b)).map (fun p => p.1.skills) = Except.ok []
        ∧ (postUser st newId (some b)).map (fun p => p.1.skills) = Except.ok []) := by
  refine ⟨?_, ?_, ?_, ?_⟩
  · simp [postOpp, skillIdsOrEmpty, hids, Except.map]
  · simp [postUser, skillIdsOrEmpty, hids, Except.map]
  · intro ids2 hperm
    simp only [postOpp, skillIdsOrEmpty, Except.map, Option.bind_some, Option.getD_some]
    congr 1
    apply List.filter_congr
    intro s _
    simp [List.contains, List.elem_eq_mem, hperm.mem_iff]
  · intro hnil
    subst hnil
    constructor
    · simp [postOpp, skillIdsOrEmpty, hids, Except.map, List.filter_eq_nil_iff]
    · simp [postUser, skillIdsOrEmpty, hids, Except.map, List.filter_eq_nil_iff]

/-- C3 witness: creating against the example catalog `[A, B, C]` with
caller-supplied order `["C", "A"]` yields skills `[A, C]` in catalog
order; the empty filter yields `[]`. -/
theorem create_skill_filter_witness :
    ((postOpp stEx "n1" "2024-02-01T00:00:00.000Z"
        (some { title := "x", skillIds := some ["C", "A"] })).map (fun p => p.1.skills)
      = Except.ok [skA, skC])
    ∧ ((postUser stEx "n2" (some { name := "y", skillIds := some [] })).map (fun p => p.1.skills)
      = Except.ok []) :=
  ⟨by
    have h := (create_skill_filter stEx { title := "x", skillIds := some ["C", "A"] }
      "n1" "2024-02-01T00:00:00.000Z" ["C", "A"] rfl).1
    rw [h]; rfl,
   by
    have h := ((create_skill_filter stEx { name := "y", skillIds := some [] }
      "n2" "ts" [] rfl).2.2.2 rfl).2
    exact h⟩

/-- C5: `postOpp` builds a record carrying the supplied fresh id and
timestamp, pushes it onto the front of the opportunity collection and
returns it; `postUser` appends its record to the end of the user
collection and returns it. -/
theorem create_positions (st : MockStore) (b : ReqBody) (newId ts : String) :
    (∃ opp : Opportunity,
        postOpp st newId ts (some b)
          = Except.ok (opp, { st with opportunities := opp :: st.opportunities })
        ∧ opp.id = newId ∧ opp.createdAt = ts)
    ∧ (∃ user : User,
        postUser st newId (some b)
          = Except.ok (user, { st with users := st.users ++ [user] })
        ∧ user.id = newId) :=
  ⟨⟨_, rfl, rfl, rfl⟩, ⟨_, rfl, rfl⟩⟩

/-- C7: in live mode, a non-success response makes the call fail with an
error whose message is the raw response body text, and a success response
yields the parsed JSON body (the store is untouched either way). -/
theorem live_mode_response (st : MockStore) (path : String)
    (options : Option RequestOptions) (newId ts : String) (res : HttpResponse) :
    (res.ok = false →
      api false st path options newId ts res = Except.error res.text)
    ∧ (res.ok = true →
      api false st path options newId ts res = Except.ok (res.json, st)) := by
  constructor <;> (intro h; simp [api, liveRoute, h, Except.map])

/-- C7 witness: a 404 with body text `Not found` surfaces exactly that
text as the error, and a success response yields its JSON. -/
theorem live_mode_response_witness :
    (api false stEx "/api/skills" none "n" "t" res404 = Except.error "Not found")
    ∧ (api false stEx "/api/skills" none "n" "t" res200
        = Except.ok (ApiPayload.skillList [], stEx)) :=
  ⟨(live_mode_response stEx "/api/skills" none "n" "t" res404).1 rfl,
   (live_mode_response stEx "/api/skills" none "n" "t" res200).2 rfl⟩

/-- C10 counterexample: with the request body missing entirely, neither
creation succeeds — `body.title` / `body.name` is a property read on
`undefined`, so the call throws instead of producing a record. -/
theorem create_missing_body_cex :
    (postOpp stEx "new-id" "2024-03-01T00:00:00.000Z" none).isOk = false
    ∧ (postUser stEx "new-id" none).isOk = false := by
  constructor <;> rfl

/-- C10 (amended): when the body is present but `skillIds` is absent or
null, creation succeeds with an empty skills sequence (the guarded filter
treats a missing `skillIds` as the empty list); when the body itself is
missing, both creation calls throw. -/
theorem create_optional_skillIds (st : MockStore) (b : ReqBody) (newId ts : String)
    (h : b.skillIds = none) :
    ((postOpp st newId ts (some b)).map (fun p => p.1.skills) = Except.ok [])
    ∧ ((postUser st newId (some b)).map (fun p => p.1.skills) = Except.ok [])
    ∧ (postOpp st newId ts none).isOk = false
    ∧ (postUser st newId none).isOk = false := by
  refine ⟨?_, ?_, rfl, rfl⟩
  · simp [postOpp, skillIdsOrEmpty, h, Except.map, List.filter_eq_nil_iff]
  · simp [postUser, skillIdsOrEmpty, h, Except.map, List.filter_eq_nil_iff]

/-- C10 witness: a body carrying only a title (no `skillIds` field)
creates records with empty skills, while a missing body fails. -/
theorem create_optional_skillIds_witness :
    ((postOpp stEx "n3" "2024-03-01T00:00:00.000Z" (some { title := "x" })).map
        (fun p => p.1.skills) = Except.ok [])
    ∧ ((postUser stEx "n4" (some { name := "y" })).map (fun p => p.1.skills) = Except.ok [])
    ∧ (postOpp stEx "n3" "2024-03-01T00:00:00.000Z" none).isOk = false
    ∧ (postUser stEx "n4" none).isOk = false := by
  have h1 := create_optional_skillIds stEx { title := "x" } "n3" "2024-03-01T00:00:00.000Z" rfl
  have h2 := create_optional_skillIds stEx { name := "y" } "n4" "2024-03-01T00:00:00.000Z" rfl
  exact ⟨h1.1, h2.2.1, h1.2.2.1, h2.2.2.2⟩

/-- C6: in mock mode the dispatcher matches method+path literally against
the fixed route table; any pair outside the table fails with the
`Mock route not implemented` error — both at the router itself and through
the full `api` call, so it never falls back to the network response. -/
theorem mock_route_not_implemented (st : MockStore) (path method : String)
    (body : Option ReqBody) (newId ts : String) (res : HttpResponse)
    (h : inRouteTable path method = false) (hm : toUpperCase method = method)
    (hne : method ≠ "") :
    (mockRoute st path method body newId ts
        = Except.error ("Mock route not implemented: " ++ method ++ " " ++ path))
    ∧ (api true st path (some { method := some method, body := body }) newId ts res
        = Except.error ("Mock route not implemented: " ++ method ++ " " ++ path)) := by
  simp only [inRouteTable, Bool.or_eq_false_iff] at h
  obtain ⟨⟨⟨⟨⟨h1, h2⟩, h3⟩, h4⟩, h5⟩, h6⟩ := h
  have hmock : mockRoute st path method body newId ts
      = Except.error ("Mock route not implemented: " ++ method ++ " " ++ path) := by
    simp [mockRoute, h1, h2, h3, h4, h5, h6]
  exact ⟨hmock, by simpa [api, jsOrString, hne, hm] using hmock⟩

/-- C6 witness: `POST /api/unknown` is outside the table and fails with
the exact error message. -/
theorem mock_route_not_implemented_witness :
    (mockRoute stEx "/api/unknown" "POST" none "n" "t"
        = Except.error "Mock route not implemented: POST /api/unknown")
    ∧ (api true stEx "/api/unknown" (some { method := some "POST", body := none }) "n" "t" res200
        = Except.error "Mock route not implemented: POST /api/unknown") :=
  mock_route_not_implemented stEx "/api/unknown" "POST" none "n" "t" res200
    (by decide) (by decide) (by decide)

/-- C9: every successful mock call preserves the skill catalog exactly
(`listSkills` is unchanged), only prepends to the opportunity collection
and only appends to the user collection — existing records are never
updated or removed. -/
theorem store_append_only (st : MockStore) (path method : String) (body : Option ReqBody)
    (newId ts : String) (out : ApiPayload × MockStore)
    (hok : mockRoute st path method body newId ts = Except.ok out) :
    out.2.skills = st.skills
    ∧ getSkills out.2 = getSkills st
    ∧ (∃ newOpps : List Opportunity, out.2.opportunities = newOpps ++ st.opportunities)
    ∧ (∃ newUsers : List User, out.2.users = st.users ++ newUsers) := by
  simp only [mockRoute] at hok
  split_ifs at hok
  · simp only [Except.ok.injEq] at hok
    subst hok
    exact ⟨rfl, rfl, ⟨[], rfl⟩, ⟨[], by simp⟩⟩
  · simp only [Except.ok.injEq] at hok
    subst hok
    exact ⟨rfl, rfl, ⟨[], rfl⟩, ⟨[], by simp⟩⟩
  · cases body with
    | none => simp [postOpp, Except.map] at hok
    | some b =>
        simp only [postOpp, Except.map, Except.ok.injEq] at hok
        subst hok
        exact ⟨rfl, rfl, ⟨[_], rfl⟩, ⟨[], by simp⟩⟩
  · simp only [Except.ok.injEq] at hok
    subst hok
    exact ⟨rfl, rfl, ⟨[], rfl⟩, ⟨[], by simp⟩⟩
  · cases body with
    | none => simp [postUser, Except.map] at hok
    | some b =>
        simp only [postUser, Except.map, Except.ok.injEq] at hok
        subst hok
        exact ⟨rfl, rfl, ⟨[], rfl⟩, ⟨[_], rfl⟩⟩
  · simp only [Except.ok.injEq] at hok
    subst hok
    exact ⟨rfl, rfl, ⟨[], rfl⟩, ⟨[], by simp⟩⟩

/-- C9 witness: a creation through the router keeps the catalog, prepends
the new opportunity and leaves the users untouched. -/
theorem store_append_only_witness :
    outNew.2.skills = stEx.skills
    ∧ getSkills outNew.2 = getSkills stEx
    ∧ (∃ newOpps : List Opportunity, outNew.2.opportunities = newOpps ++ stEx.opportunities)
    ∧ (∃ newUsers : List User, outNew.2.users = stEx.users ++ newUsers) :=
  store_append_only stEx "/api/opportunities" "POST" (some { title := "x" }) "n" "t" outNew rfl

/-- C8: the read operations leave the store unchanged — every successful
mock `GET` returns the store exactly as it was (listing sorts a copy), and
no stored opportunity ever acquires a `matchScore`: if none is persisted
before a call, none is persisted after it (`getMatches` sets the score
only on the returned copies). -/
theorem reads_leave_store_unchanged (st : MockStore) (path method : String)
    (body : Option ReqBody) (newId ts : String) (out : ApiPayload × MockStore)
    (hnone : ∀ o ∈ st.opportunities, o.matchScore = none)
    (hok : mockRoute st path method body newId ts = Except.ok out) :
    (method = "GET" → out.2 = st)
    ∧ (∀ o ∈ out.2.opportunities, o.matchScore = none) := by
  simp only [mockRoute] at hok
  split_ifs at hok with hc1 hc2 hc3 hc4 hc5 hc6
  · simp only [Except.ok.injEq] at hok
    subst hok
    exact ⟨fun _ => rfl, hnone⟩
  · simp only [Except.ok.injEq] at hok
    subst hok
    exact ⟨fun _ => rfl, hnone⟩
  · cases body with
    | none => simp [postOpp, Except.map] at hok
    | some b =>
        simp only [postOpp, Except.map, Except.ok.injEq] at hok
        subst hok
        refine ⟨fun hg => ?_, fun o ho => ?_⟩
        · subst hg; simp at hc3
        · rcases List.mem_cons.mp ho with rfl | ho
          · rfl
          · exact hnone o ho
  · simp only [Except.ok.injEq] at hok
    subst hok
    exact ⟨fun _ => rfl, hnone⟩
  · cases body with
    | none => simp [postUser, Except.map] at hok
    | some b =>
        simp only [postUser, Except.map, Except.ok.injEq] at hok
        subst hok
        exact ⟨fun hg => by subst hg; simp at hc5, hnone⟩
  · simp only [Except.ok.injEq] at hok
    subst hok
    exact ⟨fun _ => rfl, hnone⟩

/-- C8 witness: the matching read on the example store returns the store
unchanged and persists no score. -/
theorem reads_leave_store_unchanged_witness :
    outMatches.2 = stEx
    ∧ (∀ o ∈ outMatches.2.opportunities, o.matchScore = none) :=
  ⟨(reads_leave_store_unchanged stEx "/api/users/u1/matches" "GET" none "n" "t" outMatches
      (by decide) rfl).1 rfl,
   (reads_leave_store_unchanged stEx "/api/users/u1/matches" "GET" none "n" "t" outMatches
      (by decide) rfl).2⟩

/-- The opportunity comparator is transitive. -/
theorem oppLE_trans : ∀ a b c : Opportunity, oppLE a b → oppLE b c → oppLE a c := by
  intro a b c h1 h2
  simp only [oppLE, decide_eq_true_eq] at h1 h2 ⊢
  exact le_trans h2 h1

/-- The opportunity comparator is total. -/
theorem oppLE_total : ∀ a b : Opportunity, oppLE a b || oppLE b a := by
  intro a b
  simp only [oppLE, Bool.or_eq_true, decide_eq_true_eq]
  exact le_total b.createdAt a.createdAt

/-- When `a` compares no greater than everything in `l`, the stable sort
keeps `a` at the front. -/
theorem mergeSort_cons_of_max {α : Type} (le : α → α → Bool)
    (htrans : ∀ a b c : α, le a b → le b c → le a c)
    (htotal : ∀ a b : α, le a b || le b a)
    (a : α) (l : List α) (h : ∀ b ∈ l, le a b) :
    (a :: l).mergeSort le = a :: l.mergeSort le := by
  obtain ⟨l₁, l₂, h₁, h₂, h₃⟩ := List.mergeSort_cons htrans htotal a l
  cases l₁ with
  | nil =>
      simp only [List.nil_append] at h₁ h₂
      rw [h₁, h₂]
  | cons x xs =>
      exfalso
      have hx : x ∈ l := by
        have hmem : x ∈ l.mergeSort le := by
          rw [h₂]
          exact List.mem_append_left _ (List.mem_cons_self x xs)
        exact List.mem_mergeSort.mp hmem
      have hcontra := h₃ x (List.mem_cons_self x xs)
      rw [h x hx] at hcontra
      simp at hcontra

/-- C4: `listOpportunities` returns all opportunities (a permutation of
the store) sorted by `createdAt` descending, ties on equal timestamps kept
stably in the stored order; and after creating two opportunities in
sequence, with the second timestamp at least every existing one, the most
recently created record is first in the listing. -/
theorem listOpportunities_sorted (st : MockStore) :
    ((getOpps st).Pairwise (fun a b => b.createdAt ≤ a.createdAt))
    ∧ (getOpps st).Perm st.opportunities
    ∧ (∀ a b : Opportunity, [a, b].Sublist st.opportunities →
        a.createdAt = b.createdAt → [a, b].Sublist (getOpps st))
    ∧ (∀ (b1 b2 : ReqBody) (id1 ts1 id2 ts2 : String) (o1 o2 : Opportunity)
        (st1 st2 : MockStore),
        postOpp st id1 ts1 (some b1) = Except.ok (o1, st1) →
        postOpp st1 id2 ts2 (some b2) = Except.ok (o2, st2) →
        ts1 ≤ ts2 → (∀ o ∈ st.opportunities, o.createdAt ≤ ts2) →
        (getOpps st2).head? = some o2) := by
  refine ⟨?_, ?_, ?_, ?_⟩
  · exact (List.sorted_mergeSort oppLE_trans oppLE_total st.opportunities).imp
      (fun h => by simpa [oppLE] using h)
  · exact List.mergeSort_perm st.opportunities oppLE
  · intro a b hsub heq
    refine List.pair_sublist_mergeSort oppLE_trans oppLE_total ?_ hsub
    simp [oppLE, ← heq]
  · intro b1 b2 id1 ts1 id2 ts2 o1 o2 st1 st2 hp1 hp2 hts hall
    simp only [postOpp, Except.ok.injEq, Prod.mk.injEq] at hp1 hp2
    obtain ⟨rfl, rfl⟩ := hp1
    obtain ⟨rfl, rfl⟩ := hp2
    unfold getOpps
    rw [mergeSort_cons_of_max oppLE oppLE_trans oppLE_total]
    · rfl
    · intro o ho
      simp only [oppLE, decide_eq_true_eq]
      rcases List.mem_cons.mp ho with rfl | ho
      · exact hts
      · exact hall o ho

/-- C4 witness: on the example store the listing is sorted descending and
a pair of fresh creations puts the newest first. -/
theorem listOpportunities_sorted_witness :
    ((getOpps stEx).Pairwise (fun a b => b.createdAt ≤ a.createdAt))
    ∧ (getOpps stEx).Perm stEx.opportunities
    ∧ (getOpps stEx2).head? = some oppFresh2 := by
  refine ⟨(listOpportunities_sorted stEx).1, (listOpportunities_sorted stEx).2.1, ?_⟩
  refine (listOpportunities_sorted stEx).2.2.2 { title := "y" } { title := "z" }
    "i1" "2024-02-01T00:00:00.000Z" "i2" "2024-02-02T00:00:00.000Z"
    oppFresh1 oppFresh2 stEx1 stEx2 rfl rfl ?_ ?_
  · rw [String.le_iff_toList_le]; decide
  · intro o ho
    simp only [stEx, List.mem_cons, List.not_mem_nil, or_false] at ho
    rcases ho with rfl | rfl | rfl
    all_goals rw [String.le_iff_toList_le]
    all_goals decide

end SkillBridge
